import Mathlib

/-!
Verification of the resque-backend CRUD service layer.

This file gives a shallow embedding, in Lean 4, of the parts of the
`resque-backend` Python application that the verified properties talk
about: the generic `BaseService` / `BaseRepository` CRUD triad, the
`BaseCrudEndpoint` route registration, the authentication service with
its login-attempt limiter, JWT token creation/verification, the
permission checker, the TTL user cache and the soft-delete repository.

Python objects are modelled as explicit records, the database as an
in-memory list of rows, and raised exceptions as `Except` errors.
Integer timestamps stand for `datetime` values (in minutes for the
login-attempt window, matching the 5-minute cooldown; in seconds for
the JWT expiry and the 900-second cache TTL).
-/

namespace Resque

/-- Exceptions that the modelled Python code can raise.  `httpException`
carries the HTTP status code and detail, the other constructors stand for
the built-in Python exceptions that escape the service layer uncaught. -/
inductive PyExc where
  | httpException (status : Nat) (detail : String)
  | zeroDivisionError
  | attributeError (msg : String)
  | typeError (msg : String)
  | sqlalchemyError (msg : String)
  deriving Repr, DecidableEq

/-- A stored database row for the generic CRUD model: an integer primary
key plus a field map (attribute name to value), mirroring a SQLAlchemy
model instance whose columns are accessed with `getattr`/`setattr`. -/
structure Row where
  id : Nat
  fields : List (String × String)
  deriving Repr, DecidableEq

/-- `app/schemas/base_schema.py` `PaginatedResponse`: items of the current
page, total number of items, current page number, page size. -/
structure PaginatedResponse (α : Type) where
  items : List α
  total : Nat
  page : Nat
  size : Nat
  deriving Repr, DecidableEq

/-- `BaseRepository.list`: `select(self.model)` over the whole table —
every stored row, in storage order. -/
def BaseRepository.list (table : List Row) : List Row :=
  table

/-- `BaseRepository.get`: `select ... where model.id == id`,
`scalar_one_or_none` — the row with the given primary key, if any. -/
def BaseRepository.get (table : List Row) (id : Nat) : Option Row :=
  table.find? (fun r => r.id == id)

/-- `BaseService.list` (`app/services/base_service.py` lines 81-105).
`db_objs = repository.list()`; `total = len(db_objs)`;
`items = [validate(obj) for obj in db_objs[skip : skip+limit]]`;
`PaginatedResponse(items=items, total=total, page=skip // limit + 1,
size=limit)`.  The page computation divides by `limit` with no guard:
Python raises `ZeroDivisionError` when `limit == 0`, and the method's
`except` clause catches only `SQLAlchemyError`, so that error escapes
unconverted.  `validate` stands for `response_schema.model_validate`. -/
def BaseService.list {α : Type} (table : List Row) (validate : Row → α)
    (skip limit : Nat) : Except PyExc (PaginatedResponse α) :=
  let db_objs := BaseRepository.list table
  let total := db_objs.length
  let items := ((db_objs.drop skip).take limit).map validate
  if limit == 0 then
    .error .zeroDivisionError
  else
    .ok { items := items, total := total, page := skip / limit + 1, size := limit }

/-- The route-layer guard on `limit` in `BaseCrudEndpoint.list`:
`Query(100, ge=1, le=100)`. -/
def listLimitGuard (limit : Int) : Bool :=
  1 ≤ limit && limit ≤ 100

/-- The route-layer guard on `skip` in `BaseCrudEndpoint.list`:
`Query(0, ge=0)`. -/
def listSkipGuard (skip : Int) : Bool :=
  0 ≤ skip

/-- A Python value as it flows into `BaseRepository.update`'s `db_obj`
parameter: either a mapped model instance or a bare `int`.  The service
layer passes the raw id (an `int`) where the repository expects the
instance, so the embedding keeps the distinction. -/
inductive PyVal where
  | objVal (r : Row)
  | intVal (n : Nat)
  deriving Repr, DecidableEq

/-- `setattr(db_obj, field, obj_in[field])` on a field map: replace the
value when the attribute exists, add it otherwise. -/
def setField (fields : List (String × String)) (k v : String) : List (String × String) :=
  if fields.any (fun p => p.1 == k) then
    fields.map (fun p => if p.1 == k then (k, v) else p)
  else
    fields ++ [(k, v)]

/-- The `for field in obj_in: setattr(db_obj, field, obj_in[field])` loop
of `BaseRepository.update` applied to a model instance. -/
def setFields (r : Row) (obj_in : List (String × String)) : Row :=
  obj_in.foldl (fun acc p => { acc with fields := setField acc.fields p.1 p.2 }) r

/-- `BaseRepository.update` (`app/repositories/base_repository.py` lines
65-78).  With a model instance it sets each payload field on the object,
adds it to the session and commits, so the table row with that id now
carries the new values.  With a bare `int` (what `BaseService.update`
actually passes), the first `setattr` raises `AttributeError`; with an
empty payload the loop is skipped and `session.add(int)` raises
SQLAlchemy's `UnmappedInstanceError`, an `SQLAlchemyError`. -/
def BaseRepository.update (table : List Row) (db_obj : PyVal)
    (obj_in : List (String × String)) : Except PyExc (Row × List Row) :=
  match db_obj with
  | .objVal r =>
    let r2 := setFields r obj_in
    .ok (r2, table.map (fun x => if x.id == r.id then r2 else x))
  | .intVal _ =>
    if obj_in.isEmpty then
      .error (.sqlalchemyError "UnmappedInstanceError: int is not mapped")
    else
      .error (.attributeError "AttributeError: int object attribute is read-only")

/-- Whether a `PyExc` is SQLAlchemy's `SQLAlchemyError` (the only class
`BaseService`'s `except` clauses catch).  `UnmappedInstanceError` from
`session.add` is one; `AttributeError`, `TypeError`, `ZeroDivisionError`
and `HTTPException` are not. -/
def PyExc.isSQLAlchemyError : PyExc → Bool
  | .sqlalchemyError _ => true
  | _ => false

/-- `BaseService.update` (`app/services/base_service.py` lines 107-128).
Looks the object up (404 when absent), dumps the payload with
`exclude_unset=True` (the given field list), then calls
`self.repository.update(id, update_data)` — passing the raw `id` where
`BaseRepository.update` expects the model instance `db_obj`.
`SQLAlchemyError` is converted to HTTP 500; anything else escapes. -/
def BaseService.update {α : Type} (table : List Row) (validate : Row → α)
    (id : Nat) (payload : List (String × String)) : Except PyExc (α × List Row) :=
  match BaseRepository.get table id with
  | none => .error (.httpException 404 "Object not found")
  | some _ =>
    match BaseRepository.update table (.intVal id) payload with
    | .ok (obj, table2) => .ok (validate obj, table2)
    | .error e =>
      if e.isSQLAlchemyError then
        .error (.httpException 500 "Database error")
      else
        .error e

/-- The parameter names accepted by `BaseService.list`
(`async def list(self, skip: int = 0, limit: int = 100)`). -/
def baseServiceListParamNames : List String := ["skip", "limit"]

/-- The keyword-argument names `BaseCrudEndpoint.list` passes in
`service.list(skip=skip, limit=limit, sort_by=sort_by, filter_by=filter_by)`. -/
def crudListCallKwargNames : List String := ["skip", "limit", "sort_by", "filter_by"]

/-- The Python call `service.list(...)` as issued by the route handler:
it succeeds only if every keyword argument names a parameter of the
callee, raising `TypeError` otherwise. -/
def callBaseServiceList {α : Type} (table : List Row) (validate : Row → α)
    (skip limit : Nat) : Except PyExc (PaginatedResponse α) :=
  if crudListCallKwargNames.all (fun k => baseServiceListParamNames.contains k) then
    BaseService.list table validate skip limit
  else
    .error (.typeError "TypeError: list() got an unexpected keyword argument: sort_by")

/-- Detail string of an exception, Python's `str(e)`. -/
def PyExc.str : PyExc → String
  | .httpException _ d => d
  | .zeroDivisionError => "division by zero"
  | .attributeError m => m
  | .typeError m => m
  | .sqlalchemyError m => m

/-- `BaseCrudEndpoint.list` (`app/api/base_crud_endpoint.py` lines
211-250): the handler body is `try: result = await service.list(skip=...,
limit=..., sort_by=..., filter_by=...); return result` with
`except Exception as e: raise HTTPException(status_code=400, detail=str(e))`. -/
def BaseCrudEndpoint.list {α : Type} (table : List Row) (validate : Row → α)
    (skip limit : Nat) : Except PyExc (PaginatedResponse α) :=
  match callBaseServiceList table validate skip limit with
  | .ok r => .ok r
  | .error e => .error (.httpException 400 e.str)

/-- A row of the `login_attempts` table (`app/models/login_attempt.py`):
email plus attempt timestamp.  Timestamps are integers in minutes, so the
5-minute cooldown window is the constant 5. -/
structure LoginAttempt where
  email : String
  attempt_time : Int
  deriving Repr, DecidableEq

/-- A row of the `users` table, with the columns the authentication
path reads. -/
structure UserRow where
  id : Nat
  email : String
  name : String
  hashed_password : String
  deriving Repr, DecidableEq

/-- `AuthenticationService.max_attempts`. -/
def max_attempts : Nat := 5

/-- `AuthenticationService.cooldown_period` (`timedelta(minutes=5)`),
in minutes. -/
def cooldown_period : Int := 5

/-- `AuthenticationService.check_login_attempts`
(`app/services/authentication_service.py` lines 23-48): delete the
attempts for this email at or before `current_time - cooldown_period`,
count the remaining attempts for this email strictly after that cutoff,
return `False` when the count reaches `max_attempts`, otherwise record a
new attempt at `current_time` and return `True`.  The returned list is
the `login_attempts` table after the call. -/
def check_login_attempts (attempts : List LoginAttempt) (email : String)
    (current_time : Int) : Bool × List LoginAttempt :=
  let afterDelete := attempts.filter (fun a =>
    !(a.email == email && decide (a.attempt_time ≤ current_time - cooldown_period)))
  let attempt_count := (afterDelete.filter (fun a =>
    a.email == email && decide (current_time - cooldown_period < a.attempt_time))).length
  if max_attempts ≤ attempt_count then
    (false, afterDelete)
  else
    (true, afterDelete ++ [⟨email, current_time⟩])

/-- Outcome of `AuthenticationService.authenticate_user`: the raised
exception or the returned user. -/
inductive AuthOutcome where
  | tooManyAttempts
  | invalidCredentials
  | success (u : UserRow)
  deriving Repr, DecidableEq

/-- `AuthenticationService.authenticate_user`
(`app/services/authentication_service.py` lines 50-65): raise
`TooManyAttemptsError` when `check_login_attempts` returns `False`;
otherwise look the user up by email and raise `InvalidCredentialsError`
when absent or when the password does not verify, returning the user
otherwise.  `verify_password` (bcrypt `checkpw`) is passed in as a
function; the second component is the `login_attempts` table after the
call. -/
def authenticate_user (users : List UserRow) (attempts : List LoginAttempt)
    (verify_password : String → String → Bool) (email password : String)
    (current_time : Int) : AuthOutcome × List LoginAttempt :=
  let checked := check_login_attempts attempts email current_time
  if !checked.1 then
    (.tooManyAttempts, checked.2)
  else
    match users.find? (fun u => u.email == email) with
    | none => (.invalidCredentials, checked.2)
    | some u =>
      if verify_password password u.hashed_password then
        (.success u, checked.2)
      else
        (.invalidCredentials, checked.2)

/-- The routing metadata an `EndpointAction` carries
(`app/api/base_crud_endpoint.py` lines 31-51): handler name, HTTP
methods, detail flag, response model, status code, extra url path.
Response models are identified by name. -/
structure RouteAction where
  name : String
  methods : List String
  detail : Bool
  response_model : Option String
  status_code : Nat
  url_path : Option String
  deriving Repr, DecidableEq

/-- The actions the `@endpoint_action` decorators record on
`BaseCrudEndpoint.endpoint_actions`, in class-body order: create, get,
list, update, delete, with the decorator arguments given in the source
(defaults: `detail=False`, `response_model=None`, `status_code=200`,
`url_path=None`). -/
def crudEndpointActions : List RouteAction :=
  [⟨"create", ["POST"], false, some "ResponseSchema", 201, none⟩,
   ⟨"get", ["GET"], true, some "ResponseSchema", 200, none⟩,
   ⟨"list", ["GET"], false, some "List[ResponseSchema]", 200, none⟩,
   ⟨"update", ["PUT"], true, some "ResponseSchema", 200, none⟩,
   ⟨"delete", ["DELETE"], true, none, 204, none⟩]

/-- One route as added to the FastAPI router by `add_api_route`. -/
structure ApiRoute where
  path : String
  methods : List String
  response_model : Option String
  status_code : Nat
  name : String
  deriving Repr, DecidableEq

/-- `BaseCrudEndpoint.register_routes` (`app/api/base_crud_endpoint.py`
lines 116-137), with `self.urls = ("list": prefix, "detail":
prefix + "/\x7bid\x7d")` from `__init__`: for each recorded action the base
path is the detail url when `action.detail` else the collection url,
`action.url_path` is appended when set, and the route is added with the
action's methods, response model and status code.  `pfx` is the
constructor's `prefix` argument (a Lean keyword, hence renamed). -/
def register_routes (pfx : String) (actions : List RouteAction) : List ApiRoute :=
  actions.map (fun action =>
    let base_path := if action.detail then pfx ++ "/\x7bid\x7d" else pfx
    let path := match action.url_path with
      | some u => base_path ++ "/" ++ u
      | none => base_path
    ⟨path, action.methods, action.response_model, action.status_code, action.name⟩)

/-- The two configuration values the JWT layer reads from `settings`
(`app/core/config.py`): `SECRET_KEY` and `ALGORITHM`. -/
structure Settings where
  SECRET_KEY : String
  ALGORITHM : String
  deriving Repr, DecidableEq

/-- A JWT claims payload: the string-valued claims plus the registered
`exp` claim (seconds since epoch), kept apart because
`create_access_token` writes it as a datetime. -/
structure JwtPayload where
  claims : List (String × String)
  exp : Option Int
  deriving Repr, DecidableEq

/-- An encoded JWT, modelled as the payload plus the signing key and
algorithm baked into the signature. -/
structure JwtToken where
  payload : JwtPayload
  key : String
  alg : String
  deriving Repr, DecidableEq

/-- Errors raised by the jose `jwt` module: `ExpiredSignatureError`
(a subclass of `JWTError`, listed first as in the `except` clauses)
and any other `JWTError`. -/
inductive JoseError where
  | expiredSignature
  | jwtError
  deriving Repr, DecidableEq

/-- Modelled from the jose library: `jwt.encode(claims, key,
algorithm)` signs the payload with the key and algorithm. -/
def jwt_encode (payload : JwtPayload) (key : String) (alg : String) : JwtToken :=
  ⟨payload, key, alg⟩

/-- Modelled from the jose library: `jwt.decode(token, key,
algorithms)` verifies the signature against the key and the allowed
algorithms (raising `JWTError` on mismatch) and then the `exp` claim
against the current time (raising `ExpiredSignatureError` when the
expiry has passed), returning the payload otherwise. -/
def jwt_decode (token : JwtToken) (key : String) (algs : List String)
    (now : Int) : Except JoseError JwtPayload :=
  if token.key == key && algs.contains token.alg then
    match token.payload.exp with
    | some e => if e ≤ now then .error .expiredSignature else .ok token.payload
    | none => .ok token.payload
  else
    .error .jwtError

/-- `create_access_token` (`app/core/security.py` lines 41-51):
`expire = utcnow() + expires_delta` (default `timedelta(minutes=15)`),
`to_encode.update(\x7b"exp": expire\x7d)`, then encode under
`settings.SECRET_KEY` and `settings.ALGORITHM`.  `now` is `utcnow()` in
seconds; `expires_delta` is in seconds. -/
def create_access_token (cfg : Settings) (data : JwtPayload)
    (expires_delta : Option Int) (now : Int) : JwtToken :=
  let expire := match expires_delta with
    | some d => now + d
    | none => now + 15 * 60
  jwt_encode { data with exp := some expire } cfg.SECRET_KEY cfg.ALGORITHM

/-- An authentication failure: the credentials exception supplied by the
caller of `verify_token`, or an `HTTPException` raised directly. -/
inductive AuthError where
  | credentialsException
  | httpException (status : Nat) (detail : String)
  deriving Repr, DecidableEq

/-- `verify_token` (`app/core/security.py` lines 88-104): decode under
the configured secret and algorithm; on success take `payload.get("sub")`
and raise the supplied credentials exception when it is absent, returning
it otherwise; `ExpiredSignatureError` becomes HTTP 401 "Token has
expired", any other `JWTError` the credentials exception. -/
def verify_token (cfg : Settings) (token : JwtToken) (now : Int) :
    Except AuthError String :=
  match jwt_decode token cfg.SECRET_KEY [cfg.ALGORITHM] now with
  | .ok payload =>
    match payload.claims.lookup "sub" with
    | some email => .ok email
    | none => .error .credentialsException
  | .error .expiredSignature => .error (.httpException 401 "Token has expired")
  | .error .jwtError => .error .credentialsException

/-- An entry of the module-level `user_cache`
(`app/api/endpoint_action.py` line 18): key (the email), cached user row,
insertion time.  `TTLCache(maxsize=1000, ttl=900)`. -/
structure CacheEntry where
  key : String
  user : UserRow
  inserted_at : Int
  deriving Repr, DecidableEq

/-- The `user_cache` TTL, 900 seconds. -/
def cacheTTL : Int := 900

/-- Modelled from cachetools: `TTLCache.get(k)` returns the entry only
while it is younger than the TTL. -/
def cache_get (cache : List CacheEntry) (k : String) (now : Int) :
    Option UserRow :=
  match cache.find? (fun e => e.key == k) with
  | some e => if now < e.inserted_at + cacheTTL then some e.user else none
  | none => none

/-- Modelled from cachetools: `cache[k] = u` stores the entry with the
current time, replacing any previous entry for the key. -/
def cache_put (cache : List CacheEntry) (k : String) (u : UserRow)
    (now : Int) : List CacheEntry :=
  ⟨k, u, now⟩ :: cache.filter (fun e => !(e.key == k))

/-- `UserResponse(id=user.id, email=user.email, name=user.name)`. -/
structure UserResponse where
  id : Nat
  email : String
  name : String
  deriving Repr, DecidableEq

/-- `EndpointAction.get_current_user` (`app/api/endpoint_action.py`
lines 73-106): decode the bearer token (expired → HTTP 401, other
`JWTError` or missing `sub` → the credentials exception), then consult
`user_cache`; on a hit return the cached user, on a miss query the
database by email (`scalar_one_or_none`), raise the credentials
exception when absent, otherwise cache and return the user as a
`UserResponse`.  Returns the response together with the cache as left
after the call. -/
def get_current_user (cfg : Settings) (cache : List CacheEntry)
    (db : List UserRow) (token : JwtToken) (now : Int) :
    Except AuthError (UserResponse × List CacheEntry) :=
  match jwt_decode token cfg.SECRET_KEY [cfg.ALGORITHM] now with
  | .error .expiredSignature => .error (.httpException 401 "Token has expired")
  | .error .jwtError => .error .credentialsException
  | .ok payload =>
    match payload.claims.lookup "sub" with
    | none => .error .credentialsException
    | some email =>
      match cache_get cache email now with
      | some user => .ok (⟨user.id, user.email, user.name⟩, cache)
      | none =>
        match db.find? (fun u => u.email == email) with
        | none => .error .credentialsException
        | some user =>
          .ok (⟨user.id, user.email, user.name⟩, cache_put cache email user now)

/-- The permission classes of `app/core/permissions.py`. -/
inductive PermissionClass where
  | isAllowAny
  | isAuthenticated
  | isAllowOwner
  deriving Repr, DecidableEq

/-- `has_permission(user)` of each class: `IsAllowAny` always `True`;
`IsAuthenticated` and `IsAllowOwner` require `user is not None`. -/
def has_permission : PermissionClass → Option UserRow → Bool
  | .isAllowAny, _ => true
  | .isAuthenticated, user => user.isSome
  | .isAllowOwner, user => user.isSome

/-- `PermissionChecker.check_permissions` (`app/core/permissions.py`
lines 56-59): walk the listed permissions in order and raise
`HTTPException(403, "Permission denied")` at the first one whose
`has_permission(user)` is false. -/
def PermissionChecker.check_permissions (perms : List PermissionClass)
    (user : Option UserRow) : Except PyExc Unit :=
  match perms with
  | [] => .ok ()
  | p :: rest =>
    if has_permission p user then
      PermissionChecker.check_permissions rest user
    else
      .error (.httpException 403 "Permission denied")

/-- A row of a soft-deletable table: primary key, the `SoftDeleteMixin`
columns `is_deleted` and `deleted_at`, and the rest of the row's payload
collapsed into one field. -/
structure SoftRow where
  id : Nat
  is_deleted : Bool
  deleted_at : Option Int
  payload : String
  deriving Repr, DecidableEq

/-- `SoftDeleteBaseRepository.list`
(`app/repositories/soft_delete_base_repository.py` lines 25-33):
`select ... where is_deleted == False`. -/
def SoftDeleteBaseRepository.list (table : List SoftRow) : List SoftRow :=
  table.filter (fun r => r.is_deleted == false)

/-- `SoftDeleteBaseRepository.get` (lines 35-48): `select ... where
id == id and is_deleted == False`, `scalar_one_or_none`. -/
def SoftDeleteBaseRepository.get (table : List SoftRow) (id : Nat) :
    Option SoftRow :=
  table.find? (fun r => r.id == id && r.is_deleted == false)

/-- `SoftDeleteBaseRepository.delete` (lines 50-77): `update ... where
id == id and is_deleted == False` setting `is_deleted=True,
deleted_at=utcnow()`, with `returning` read back by
`scalar_one_or_none`.  First component: the returned row; second: the
table after the statement.  No row is ever removed from storage. -/
def SoftDeleteBaseRepository.delete (table : List SoftRow) (id : Nat)
    (now : Int) : Option SoftRow × List SoftRow :=
  let updated := table.map (fun r =>
    if r.id == id && r.is_deleted == false then
      { r with is_deleted := true, deleted_at := some now }
    else r)
  let returned := (table.find? (fun r => r.id == id && r.is_deleted == false)).map
    (fun r => { r with is_deleted := true, deleted_at := some now })
  (returned, updated)

/-- `SoftDeleteBaseRepository.list_all` (lines 93-101): `select` with no
filter — every row, deleted ones included. -/
def SoftDeleteBaseRepository.list_all (table : List SoftRow) : List SoftRow :=
  table

/-! ## Theorems -/

/-- C1: `authenticate_user` raises `TooManyAttemptsError` iff at least 5
recorded attempts for the email have `attempt_time` strictly after
`current_time` minus 5 minutes (attempts at or before that cutoff having
first been deleted); otherwise it records a new attempt at `current_time`
and then raises `InvalidCredentialsError` iff no user with the email
exists or the password does not verify, returning the user otherwise. -/
theorem authenticate_user_spec (users : List UserRow) (attempts : List LoginAttempt)
    (verify_password : String → String → Bool) (email password : String)
    (current_time : Int) :
    ((authenticate_user users attempts verify_password email password current_time).1 =
        .tooManyAttempts ↔
      max_attempts ≤ (attempts.filter (fun a =>
        a.email == email &&
          decide (current_time - cooldown_period < a.attempt_time))).length) ∧
    ((attempts.filter (fun a =>
        a.email == email &&
          decide (current_time - cooldown_period < a.attempt_time))).length < max_attempts →
      (authenticate_user users attempts verify_password email password current_time).2 =
        attempts.filter (fun a =>
          !(a.email == email &&
            decide (a.attempt_time ≤ current_time - cooldown_period))) ++
          [⟨email, current_time⟩] ∧
      ((authenticate_user users attempts verify_password email password current_time).1 =
          .invalidCredentials ↔
        (match users.find? (fun u => u.email == email) with
         | none => True
         | some u => verify_password password u.hashed_password = false)) ∧
      (∀ u, (authenticate_user users attempts verify_password email password
          current_time).1 = .success u ↔
        users.find? (fun x => x.email == email) = some u ∧
        verify_password password u.hashed_password = true)) := by
  have hcnt : ((attempts.filter (fun a =>
      !(a.email == email &&
        decide (a.attempt_time ≤ current_time - cooldown_period)))).filter
      (fun a => a.email == email &&
        decide (current_time - cooldown_period < a.attempt_time))) =
      attempts.filter (fun a => a.email == email &&
        decide (current_time - cooldown_period < a.attempt_time)) := by
    rw [List.filter_filter]
    apply List.filter_congr
    intro a _
    by_cases h : a.email == email
    · by_cases hlt : current_time - cooldown_period < a.attempt_time
      · have hle : ¬ a.attempt_time ≤ current_time - cooldown_period := by omega
        simp [h, hlt, hle]
      · simp [h, hlt]
    · simp [h]
  by_cases hge : max_attempts ≤ (attempts.filter (fun a => a.email == email &&
      decide (current_time - cooldown_period < a.attempt_time))).length
  · have hchk : check_login_attempts attempts email current_time =
        (false, attempts.filter (fun a => !(a.email == email &&
          decide (a.attempt_time ≤ current_time - cooldown_period)))) := by
      unfold check_login_attempts
      simp only [hcnt]
      rw [if_pos hge]
    constructor
    · simp [authenticate_user, hchk, hge]
    · intro hlt
      exact absurd hge (Nat.not_le.mpr hlt)
  · have hchk : check_login_attempts attempts email current_time =
        (true, attempts.filter (fun a => !(a.email == email &&
          decide (a.attempt_time ≤ current_time - cooldown_period))) ++
          [⟨email, current_time⟩]) := by
      unfold check_login_attempts
      simp only [hcnt]
      rw [if_neg hge]
    have hout : authenticate_user users attempts verify_password email password
        current_time =
        ((match users.find? (fun u => u.email == email) with
          | none => AuthOutcome.invalidCredentials
          | some u =>
            if verify_password password u.hashed_password then .success u
            else .invalidCredentials),
         attempts.filter (fun a => !(a.email == email &&
           decide (a.attempt_time ≤ current_time - cooldown_period))) ++
           [⟨email, current_time⟩]) := by
      simp only [authenticate_user, hchk]
      cases users.find? (fun u => u.email == email) with
      | none => simp
      | some u =>
        by_cases hv : verify_password password u.hashed_password <;> simp [hv]
    constructor
    · rw [hout]
      constructor
      · intro h
        exfalso
        revert h
        cases users.find? (fun u => u.email == email) with
        | none => simp
        | some u =>
          by_cases hv : verify_password password u.hashed_password <;> simp [hv]
      · intro h
        exact absurd h hge
    · intro _
      refine ⟨by rw [hout], ?_, ?_⟩
      · rw [hout]
        cases hfind : users.find? (fun u => u.email == email) with
        | none => simp
        | some u =>
          by_cases hv : verify_password password u.hashed_password <;> simp [hv]
      · intro u
        rw [hout]
        cases hfind : users.find? (fun x => x.email == email) with
        | none => simp
        | some u2 =>
          by_cases hv : verify_password password u2.hashed_password
          · simp only [hv]
            simp
            rintro rfl
            exact hv
          · simp only [hv]
            simp
            rintro rfl
            exact Bool.not_eq_true _ ▸ hv

/-- C1 witness: a user with a valid password, one stale attempt (deleted)
and one attempt by another email; the attempt at time 100 is recorded and
authentication succeeds. -/
theorem authenticate_user_spec_witness :
    (([⟨"a@x", 90⟩, ⟨"b@y", 99⟩] : List LoginAttempt).filter (fun a =>
      a.email == "a@x" && decide ((100 : Int) - cooldown_period < a.attempt_time))).length <
      max_attempts ∧
    (authenticate_user [⟨1, "a@x", "A", "hpw"⟩] [⟨"a@x", 90⟩, ⟨"b@y", 99⟩]
        (fun p h => h == "h" ++ p) "a@x" "pw" 100).2 =
      [⟨"b@y", 99⟩, ⟨"a@x", 100⟩] ∧
    (authenticate_user [⟨1, "a@x", "A", "hpw"⟩] [⟨"a@x", 90⟩, ⟨"b@y", 99⟩]
        (fun p h => h == "h" ++ p) "a@x" "pw" 100).1 = .success ⟨1, "a@x", "A", "hpw"⟩ := by
  have h := authenticate_user_spec [⟨1, "a@x", "A", "hpw"⟩] [⟨"a@x", 90⟩, ⟨"b@y", 99⟩]
    (fun p hh => hh == "h" ++ p) "a@x" "pw" 100
  have h2 := h.2 (by decide)
  exact ⟨by decide, by rw [h2.1]; rfl, (h2.2.2 _).mpr ⟨rfl, rfl⟩⟩

/-- C2: for every repository state, every `skip ≥ 0` and every `limit ≥ 1`,
`BaseService.list` returns a `PaginatedResponse` whose items are exactly the
stored objects at positions `skip` through `skip+limit-1` of the full object
list (validated into the response schema), whose `total` equals the number of
all stored objects, whose `page` equals `skip // limit + 1`, and whose `size`
equals `limit`. -/
theorem BaseService.list_paginates {α : Type} (table : List Row) (validate : Row → α)
    (skip limit : Nat) (hlim : 1 ≤ limit) :
    ∃ r : PaginatedResponse α, BaseService.list table validate skip limit = .ok r ∧
      r.items.length = min limit (table.length - skip) ∧
      (∀ i, (hi : i < r.items.length) → (hix : skip + i < table.length) →
        r.items[i] = validate table[skip + i]) ∧
      r.total = table.length ∧
      r.page = skip / limit + 1 ∧
      r.size = limit := by
  have hz : (limit == 0) = false := by
    simp [Nat.beq_eq_true_eq]
    omega
  refine ⟨{ items := ((table.drop skip).take limit).map validate, total := table.length,
            page := skip / limit + 1, size := limit },
    by simp only [BaseService.list, BaseRepository.list, hz, if_neg Bool.false_ne_true], ?_, ?_,
    rfl, rfl, rfl⟩
  · simp
  · intro i hi hix
    simp only [List.length_map, List.length_take, List.length_drop] at hi
    rw [List.getElem_map, List.getElem_take, List.getElem_drop]

/-- C2 witness: a concrete pagination of a three-row table with
`skip = 1`, `limit = 2`. -/
theorem BaseService.list_paginates_witness :
    1 ≤ 2 ∧
    ∃ r : PaginatedResponse Nat,
      BaseService.list [⟨1, []⟩, ⟨2, []⟩, ⟨3, []⟩] Row.id 1 2 = .ok r ∧
      r.items.length = min 2 ([⟨1, []⟩, ⟨2, []⟩, (⟨3, []⟩ : Row)].length - 1) ∧
      (∀ i, (hi : i < r.items.length) →
        (hix : 1 + i < [⟨1, []⟩, ⟨2, []⟩, (⟨3, []⟩ : Row)].length) →
        r.items[i] = Row.id [⟨1, []⟩, ⟨2, []⟩, (⟨3, []⟩ : Row)][1 + i]) ∧
      r.total = [⟨1, []⟩, ⟨2, []⟩, (⟨3, []⟩ : Row)].length ∧
      r.page = 1 / 2 + 1 ∧
      r.size = 2 :=
  ⟨by decide, BaseService.list_paginates [⟨1, []⟩, ⟨2, []⟩, ⟨3, []⟩] Row.id 1 2 (by decide)⟩

/-- C3 (code bug): the keyword arguments of the route handler's call
`service.list(skip=..., limit=..., sort_by=..., filter_by=...)` are not
all parameters of `BaseService.list`, so the call raises `TypeError` and
the handler's `except Exception` converts it to HTTP 400: no GET request
to the collection route ever returns the service's paginated result. -/
theorem BaseCrudEndpoint.list_kwarg_mismatch :
    (crudListCallKwargNames.all (fun k => baseServiceListParamNames.contains k)) = false ∧
    BaseCrudEndpoint.list [⟨1, []⟩] Row.id 0 100 =
      .error (.httpException 400
        "TypeError: list() got an unexpected keyword argument: sort_by") ∧
    (∀ (table : List Row) (validate : Row → Nat) (skip limit : Nat),
      BaseCrudEndpoint.list table validate skip limit =
        .error (.httpException 400
          "TypeError: list() got an unexpected keyword argument: sort_by")) := by
  exact ⟨rfl, rfl, fun table validate skip limit => rfl⟩

/-- C4 (code bug): `BaseService.update` passes the raw `id` to
`BaseRepository.update`, which expects the model instance.  On an
existing id with a non-empty payload the `setattr` loop hits an `int`
and `AttributeError` escapes uncaught; with an empty payload
`session.add(id)` raises an `SQLAlchemyError` converted to HTTP 500.  A
missing id still yields HTTP 404, and `BaseRepository.update` itself,
given the actual instance as documented, does replace exactly the payload
fields and leaves the rest unchanged. -/
theorem BaseService.update_passes_id_to_repository :
    BaseService.update [⟨1, [("name", "a"), ("email", "e")]⟩] (fun r => r) 1 [("name", "b")] =
      .error (.attributeError "AttributeError: int object attribute is read-only") ∧
    BaseService.update [⟨1, [("name", "a"), ("email", "e")]⟩] (fun r => r) 1 [] =
      .error (.httpException 500 "Database error") ∧
    BaseService.update [⟨1, [("name", "a"), ("email", "e")]⟩] (fun r => r) 2 [("name", "b")] =
      .error (.httpException 404 "Object not found") ∧
    BaseRepository.update [⟨1, [("name", "a"), ("email", "e")]⟩]
        (.objVal ⟨1, [("name", "a"), ("email", "e")]⟩) [("name", "b")] =
      .ok (⟨1, [("name", "b"), ("email", "e")]⟩, [⟨1, [("name", "b"), ("email", "e")]⟩]) := by
  exact ⟨rfl, rfl, rfl, rfl⟩

/-- C5: `register_routes` registers every recorded endpoint action: each
action with `detail=True` at path `prefix + "/\x7bid\x7d"` and each action
with `detail=False` at path `prefix` (with the action's `url_path`
appended when set), using the action's HTTP methods, response model and
status code — and for the five recorded CRUD actions this yields create
(POST, 201, collection path), list (GET, collection path), get (GET,
detail path), update (PUT, detail path) and delete (DELETE, 204, detail
path). -/
theorem register_routes_spec (pfx : String) :
    (∀ (actions : List RouteAction) (i : Nat), (hi : i < actions.length) →
      ∃ hr : i < (register_routes pfx actions).length,
        (register_routes pfx actions).get ⟨i, hr⟩ =
          { path :=
              match (actions.get ⟨i, hi⟩).url_path with
              | some u =>
                (if (actions.get ⟨i, hi⟩).detail then pfx ++ "/\x7bid\x7d" else pfx) ++
                  "/" ++ u
              | none =>
                if (actions.get ⟨i, hi⟩).detail then pfx ++ "/\x7bid\x7d" else pfx,
            methods := (actions.get ⟨i, hi⟩).methods,
            response_model := (actions.get ⟨i, hi⟩).response_model,
            status_code := (actions.get ⟨i, hi⟩).status_code,
            name := (actions.get ⟨i, hi⟩).name }) ∧
    register_routes pfx crudEndpointActions =
      [⟨pfx, ["POST"], some "ResponseSchema", 201, "create"⟩,
       ⟨pfx ++ "/\x7bid\x7d", ["GET"], some "ResponseSchema", 200, "get"⟩,
       ⟨pfx, ["GET"], some "List[ResponseSchema]", 200, "list"⟩,
       ⟨pfx ++ "/\x7bid\x7d", ["PUT"], some "ResponseSchema", 200, "update"⟩,
       ⟨pfx ++ "/\x7bid\x7d", ["DELETE"], none, 204, "delete"⟩] := by
  constructor
  · intro actions i hi
    refine ⟨by simpa [register_routes] using hi, ?_⟩
    simp only [register_routes, List.get_eq_getElem, List.getElem_map]
  · rfl

/-- C5 witness: the delete action of the recorded CRUD actions, registered
under the prefix `"/users"`, lands at the detail path with method DELETE
and status 204. -/
theorem register_routes_spec_witness :
    4 < crudEndpointActions.length ∧
    ∃ hr : 4 < (register_routes "/users" crudEndpointActions).length,
      (register_routes "/users" crudEndpointActions).get ⟨4, hr⟩ =
        { path := "/users" ++ "/\x7bid\x7d", methods := ["DELETE"],
          response_model := none, status_code := 204, name := "delete" } := by
  refine ⟨by decide, ?_⟩
  exact (register_routes_spec "/users").1 crudEndpointActions 4 (by decide)

/-- C6: for every claims dict and every positive expiry delta,
`verify_token` applied to `create_access_token(data, delta)` before that
expiry returns `data["sub"]` when the `"sub"` key is set and raises the
supplied credentials exception when it is absent: JWT decoding under the
configured secret and algorithm inverts encoding. -/
theorem verify_token_roundtrip (cfg : Settings) (data : JwtPayload)
    (delta now t : Int) (hpos : 0 < delta) (hbefore : t < now + delta) :
    verify_token cfg (create_access_token cfg data (some delta) now) t =
      match data.claims.lookup "sub" with
      | some email => .ok email
      | none => .error .credentialsException := by
  have hexp : ¬ (now + delta ≤ t) := by omega
  unfold verify_token create_access_token jwt_encode jwt_decode
  simp [hexp]

/-- C6 witness: a token carrying `sub = "a@x"` with a 3600-second expiry
verifies to `"a@x"` at time 10; one carrying no `sub` raises the
credentials exception. -/
theorem verify_token_roundtrip_witness :
    (0 : Int) < 3600 ∧ (10 : Int) < 0 + 3600 ∧
    verify_token ⟨"s", "HS256"⟩
      (create_access_token ⟨"s", "HS256"⟩ ⟨[("sub", "a@x")], none⟩ (some 3600) 0) 10 =
      .ok "a@x" ∧
    verify_token ⟨"s", "HS256"⟩
      (create_access_token ⟨"s", "HS256"⟩ ⟨[("role", "admin")], none⟩ (some 3600) 0) 10 =
      .error .credentialsException := by
  refine ⟨by decide, by decide, ?_, ?_⟩
  · exact verify_token_roundtrip ⟨"s", "HS256"⟩ ⟨[("sub", "a@x")], none⟩ 3600 0 10
      (by decide) (by decide)
  · exact verify_token_roundtrip ⟨"s", "HS256"⟩ ⟨[("role", "admin")], none⟩ 3600 0 10
      (by decide) (by decide)

/-- C7 counterexample: with a valid token for `a@x`, a first call caches
the user `Alice`; after the database row changes to `Bob`, a second call
within the 900-second TTL still returns `Alice` from `user_cache` — the
result is served from state retained by the earlier call, not from the
current database. -/
theorem get_current_user_stale_cache_cex :
    get_current_user ⟨"s", "HS256"⟩ [] [⟨1, "a@x", "Alice", "h"⟩]
        (create_access_token ⟨"s", "HS256"⟩ ⟨[("sub", "a@x")], none⟩ (some 3600) 0) 10 =
      .ok (⟨1, "a@x", "Alice"⟩, [⟨"a@x", ⟨1, "a@x", "Alice", "h"⟩, 10⟩]) ∧
    get_current_user ⟨"s", "HS256"⟩ [⟨"a@x", ⟨1, "a@x", "Alice", "h"⟩, 10⟩]
        [⟨1, "a@x", "Bob", "h"⟩]
        (create_access_token ⟨"s", "HS256"⟩ ⟨[("sub", "a@x")], none⟩ (some 3600) 0) 20 =
      .ok (⟨1, "a@x", "Alice"⟩, [⟨"a@x", ⟨1, "a@x", "Alice", "h"⟩, 10⟩]) ∧
    List.find? (fun u : UserRow => u.email == "a@x")
        [⟨1, "a@x", "Bob", "h"⟩] = some ⟨1, "a@x", "Bob", "h"⟩ ∧
    ("Alice" : String) ≠ "Bob" :=
  ⟨rfl, rfl, rfl, by decide⟩

/-- C7 as amended: for every valid bearer token, `get_current_user`
returns a `UserResponse` determined by the token, the `user_cache` and
the database: a live cache entry (younger than 900 seconds) for the
token's email is returned as-is, independently of the database contents;
only on a cache miss is the current database consulted, the credentials
exception raised when the user is absent, and the fetched user cached. -/
theorem get_current_user_cache_semantics (cfg : Settings) (data : JwtPayload)
    (delta now0 t : Int) (cache : List CacheEntry) (db db2 : List UserRow)
    (email : String) (hsub : data.claims.lookup "sub" = some email)
    (hbefore : t < now0 + delta) :
    (∀ u : UserRow, cache_get cache email t = some u →
      get_current_user cfg cache db
          (create_access_token cfg data (some delta) now0) t =
        .ok (⟨u.id, u.email, u.name⟩, cache) ∧
      get_current_user cfg cache db
          (create_access_token cfg data (some delta) now0) t =
        get_current_user cfg cache db2
          (create_access_token cfg data (some delta) now0) t) ∧
    (cache_get cache email t = none →
      get_current_user cfg cache db
          (create_access_token cfg data (some delta) now0) t =
        match db.find? (fun x => x.email == email) with
        | none => .error .credentialsException
        | some x => .ok (⟨x.id, x.email, x.name⟩, cache_put cache email x t)) := by
  have hexp : ¬ (now0 + delta ≤ t) := by omega
  constructor
  · intro u hu
    unfold get_current_user create_access_token jwt_encode jwt_decode
    simp [hexp, hsub, hu]
  · intro hmiss
    unfold get_current_user create_access_token jwt_encode jwt_decode
    simp [hexp, hsub, hmiss]

/-- C7 amended witness: a live cache entry for `a@x` is returned
unchanged against two different database states; on an empty cache the
database row is fetched and cached. -/
theorem get_current_user_cache_semantics_witness :
    ([("sub", "a@x")] : List (String × String)).lookup "sub" = some "a@x" ∧
    (10 : Int) < 0 + 3600 ∧
    cache_get [⟨"a@x", ⟨1, "a@x", "Alice", "h"⟩, 5⟩] "a@x" 10 =
      some ⟨1, "a@x", "Alice", "h"⟩ ∧
    get_current_user ⟨"s", "HS256"⟩ [⟨"a@x", ⟨1, "a@x", "Alice", "h"⟩, 5⟩]
        [⟨1, "a@x", "Bob", "h"⟩]
        (create_access_token ⟨"s", "HS256"⟩ ⟨[("sub", "a@x")], none⟩ (some 3600) 0) 10 =
      .ok (⟨1, "a@x", "Alice"⟩, [⟨"a@x", ⟨1, "a@x", "Alice", "h"⟩, 5⟩]) ∧
    get_current_user ⟨"s", "HS256"⟩ [⟨"a@x", ⟨1, "a@x", "Alice", "h"⟩, 5⟩]
        [⟨1, "a@x", "Bob", "h"⟩]
        (create_access_token ⟨"s", "HS256"⟩ ⟨[("sub", "a@x")], none⟩ (some 3600) 0) 10 =
      get_current_user ⟨"s", "HS256"⟩ [⟨"a@x", ⟨1, "a@x", "Alice", "h"⟩, 5⟩] []
        (create_access_token ⟨"s", "HS256"⟩ ⟨[("sub", "a@x")], none⟩ (some 3600) 0) 10 := by
  have h := get_current_user_cache_semantics ⟨"s", "HS256"⟩ ⟨[("sub", "a@x")], none⟩
    3600 0 10 [⟨"a@x", ⟨1, "a@x", "Alice", "h"⟩, 5⟩] [⟨1, "a@x", "Bob", "h"⟩] []
    "a@x" rfl (by decide)
  have hhit := h.1 ⟨1, "a@x", "Alice", "h"⟩ rfl
  exact ⟨rfl, by decide, rfl, hhit.1, hhit.2⟩

/-- Helper for C8: `check_permissions` succeeds iff every listed
permission grants access. -/
theorem check_permissions_ok_iff (perms : List PermissionClass) (user : Option UserRow) :
    PermissionChecker.check_permissions perms user = .ok () ↔
      ∀ p ∈ perms, has_permission p user = true := by
  induction perms with
  | nil => simp [PermissionChecker.check_permissions]
  | cons p rest ih =>
    by_cases h : has_permission p user
    · simp [PermissionChecker.check_permissions, h, ih]
    · have hf : has_permission p user = false := by
        cases hh : has_permission p user
        · rfl
        · exact absurd hh h
      simp [PermissionChecker.check_permissions, hf]

/-- Helper for C8: `check_permissions` raises HTTP 403 iff some listed
permission denies access. -/
theorem check_permissions_err_iff (perms : List PermissionClass) (user : Option UserRow) :
    PermissionChecker.check_permissions perms user =
        .error (.httpException 403 "Permission denied") ↔
      ∃ p ∈ perms, has_permission p user = false := by
  induction perms with
  | nil => simp [PermissionChecker.check_permissions]
  | cons p rest ih =>
    by_cases h : has_permission p user
    · simp [PermissionChecker.check_permissions, h, ih]
    · have hf : has_permission p user = false := by
        cases hh : has_permission p user
        · rfl
        · exact absurd hh h
      simp [PermissionChecker.check_permissions, hf]

/-- C8: `PermissionChecker.check_permissions` raises HTTP 403 iff some
listed permission's `has_permission(user)` is false; with
`IsAuthenticated` it raises exactly when the user is `None`, and with
`IsAllowAny` it never raises for any user. -/
theorem check_permissions_spec (perms : List PermissionClass) (user : Option UserRow) :
    (PermissionChecker.check_permissions perms user =
        .error (.httpException 403 "Permission denied") ↔
      ∃ p ∈ perms, has_permission p user = false) ∧
    (PermissionChecker.check_permissions perms user = .ok () ↔
      ∀ p ∈ perms, has_permission p user = true) ∧
    (PermissionChecker.check_permissions [.isAuthenticated] user =
        .error (.httpException 403 "Permission denied") ↔ user = none) ∧
    PermissionChecker.check_permissions [.isAllowAny] user = .ok () := by
  refine ⟨check_permissions_err_iff perms user, check_permissions_ok_iff perms user, ?_, ?_⟩
  · rw [check_permissions_err_iff]
    cases user <;> simp [has_permission]
  · cases user <;> rfl

/-- C8 witness: `IsAuthenticated` rejects the anonymous user with 403
while `IsAllowAny` admits it. -/
theorem check_permissions_spec_witness :
    PermissionChecker.check_permissions [.isAuthenticated] none =
      .error (.httpException 403 "Permission denied") ∧
    PermissionChecker.check_permissions [.isAllowAny] none = .ok () :=
  ⟨(check_permissions_spec [] none).2.2.1.mpr rfl,
   (check_permissions_spec [] none).2.2.2⟩

/-- Helper for C9: with pairwise-distinct primary keys, `find?` on the
soft-delete predicate returns the live row with the given id. -/
theorem find?_soft_unique (table : List SoftRow) (id : Nat) (r : SoftRow)
    (huniq : table.Pairwise (fun a b => a.id ≠ b.id)) (hmem : r ∈ table)
    (hid : r.id = id) (hnd : r.is_deleted = false) :
    table.find? (fun x => x.id == id && x.is_deleted == false) = some r := by
  induction table with
  | nil => cases hmem
  | cons a rest ih =>
    rcases List.mem_cons.mp hmem with rfl | hmem2
    · simp [List.find?, hid, hnd]
    · have hane : a.id ≠ id := by
        have := (List.pairwise_cons.mp huniq).1 r hmem2
        omega
      have hpa : (a.id == id && a.is_deleted == false) = false := by
        simp [hane]
      simp only [List.find?, hpa]
      exact ih (List.pairwise_cons.mp huniq).2 hmem2

/-- C9: `SoftDeleteBaseRepository.get` and `.list` return only live
(`is_deleted = False`) rows; `delete(id)` on an existing live id with
distinct primary keys marks that row `is_deleted = True` with
`deleted_at` the deletion time and returns it, after which `get(id)`
returns `None` and `list` omits the id while `list_all` still contains
the row — storage never shrinks. -/
theorem soft_delete_spec (table : List SoftRow) (id : Nat) (now : Int) (r : SoftRow)
    (hmem : r ∈ table) (hid : r.id = id) (hnd : r.is_deleted = false)
    (huniq : table.Pairwise (fun a b => a.id ≠ b.id)) :
    (∀ x ∈ SoftDeleteBaseRepository.list table, x.is_deleted = false) ∧
    (∀ i x, SoftDeleteBaseRepository.get table i = some x → x.is_deleted = false) ∧
    (SoftDeleteBaseRepository.delete table id now).1 =
      some { r with is_deleted := true, deleted_at := some now } ∧
    SoftDeleteBaseRepository.get (SoftDeleteBaseRepository.delete table id now).2 id =
      none ∧
    (∀ x ∈ SoftDeleteBaseRepository.list (SoftDeleteBaseRepository.delete table id now).2,
      x.id ≠ id) ∧
    { r with is_deleted := true, deleted_at := some now } ∈
      SoftDeleteBaseRepository.list_all (SoftDeleteBaseRepository.delete table id now).2 ∧
    (SoftDeleteBaseRepository.delete table id now).2.length = table.length := by
  refine ⟨?_, ?_, ?_, ?_, ?_, ?_, ?_⟩
  · intro x hx
    have := (List.mem_filter.mp hx).2
    simpa using this
  · intro i x hx
    have := List.find?_some hx
    simp at this
    exact this.2
  · simp only [SoftDeleteBaseRepository.delete]
    rw [find?_soft_unique table id r huniq hmem hid hnd]
    rfl
  · simp only [SoftDeleteBaseRepository.get, SoftDeleteBaseRepository.delete]
    rw [List.find?_eq_none]
    intro x hx
    obtain ⟨y, hy, rfl⟩ := List.mem_map.mp hx
    by_cases hp : (y.id == id && y.is_deleted == false) = true
    · rw [if_pos hp]
      simp
    · rw [if_neg hp]
      exact hp
  · intro x hx
    simp only [SoftDeleteBaseRepository.list, SoftDeleteBaseRepository.delete] at hx
    have hxm := (List.mem_filter.mp hx).1
    have hxd : x.is_deleted = false := by
      have := (List.mem_filter.mp hx).2
      simpa using this
    obtain ⟨y, hy, heq⟩ := List.mem_map.mp hxm
    by_cases hp : (y.id == id && y.is_deleted == false) = true
    · rw [if_pos hp] at heq
      rw [← heq] at hxd
      simp at hxd
    · rw [if_neg hp] at heq
      subst heq
      intro hxi
      apply hp
      simp [hxi, hxd]
  · simp only [SoftDeleteBaseRepository.list_all, SoftDeleteBaseRepository.delete]
    refine List.mem_map.mpr ⟨r, hmem, ?_⟩
    rw [if_pos]
    simp [hid, hnd]
  · simp [SoftDeleteBaseRepository.delete]

/-- C9 witness: a two-row table with one live and one already-deleted
row; deleting id 1 at time 7 soft-deletes that row. -/
theorem soft_delete_spec_witness :
    (⟨1, false, none, "a"⟩ : SoftRow) ∈
      ([⟨1, false, none, "a"⟩, ⟨2, true, some 3, "b"⟩] : List SoftRow) ∧
    (SoftDeleteBaseRepository.delete
        [⟨1, false, none, "a"⟩, ⟨2, true, some 3, "b"⟩] 1 7).1 =
      some ⟨1, true, some 7, "a"⟩ ∧
    SoftDeleteBaseRepository.get
      (SoftDeleteBaseRepository.delete
        [⟨1, false, none, "a"⟩, ⟨2, true, some 3, "b"⟩] 1 7).2 1 = none ∧
    (SoftDeleteBaseRepository.delete
        [⟨1, false, none, "a"⟩, ⟨2, true, some 3, "b"⟩] 1 7).2.length = 2 := by
  have h := soft_delete_spec [⟨1, false, none, "a"⟩, ⟨2, true, some 3, "b"⟩] 1 7
    ⟨1, false, none, "a"⟩ (by decide) rfl rfl (by decide)
  exact ⟨by decide, h.2.2.1, h.2.2.2.1, h.2.2.2.2.2.2⟩

/-- C10: `BaseService.list` is safe exactly under the precondition
`limit ≥ 1`: for every state and every `limit ≥ 1` a `PaginatedResponse`
is returned; a direct call with `limit = 0` reaches the unguarded
division `skip // limit` and the resulting `ZeroDivisionError` is not
converted to an `HTTPException`; the guard `limit ≥ 1` exists only at the
route layer (`Query(100, ge=1, le=100)`). -/
theorem BaseService.list_division_safety :
    (∀ (table : List Row) (validate : Row → Nat) (skip : Nat),
      BaseService.list table validate skip 0 = .error .zeroDivisionError ∧
      ∀ status detail,
        BaseService.list table validate skip 0 ≠ .error (.httpException status detail)) ∧
    (∀ (table : List Row) (validate : Row → Nat) (skip limit : Nat), 1 ≤ limit →
      ∃ r, BaseService.list table validate skip limit = .ok r) ∧
    listLimitGuard 0 = false ∧
    (∀ limit : Int, listLimitGuard limit = true ↔ 1 ≤ limit ∧ limit ≤ 100) := by
  refine ⟨fun table validate skip => ⟨rfl, fun status detail h => by simp [BaseService.list] at h⟩,
    fun table validate skip limit hlim => ?_, rfl, fun limit => ?_⟩
  · obtain ⟨r, hr, -⟩ := BaseService.list_paginates table validate skip limit hlim
    exact ⟨r, hr⟩
  · simp [listLimitGuard]

/-- C10 witness: concrete evaluations of the two branches and of the
route-layer guard. -/
theorem BaseService.list_division_safety_witness :
    BaseService.list [⟨1, []⟩] Row.id 2 0 = .error .zeroDivisionError ∧
    (∃ r, BaseService.list [⟨1, []⟩] Row.id 2 5 = .ok r) ∧
    listLimitGuard 0 = false :=
  ⟨(BaseService.list_division_safety.1 [⟨1, []⟩] Row.id 2).1,
   BaseService.list_division_safety.2.1 [⟨1, []⟩] Row.id 2 5 (by decide),
   BaseService.list_division_safety.2.2.1⟩

end Resque
